import Mathlib

/-!
Verification of the agent's watch-and-export pipeline core:
the exporter registry (`internal/pkg/global/exporter_registry.go`) and the
container lifecycle watcher (specified in the design document; exercised by
`pkg/watch/docker_container_test.go`).

The Go code is shallowly embedded: each delivery task (goroutine) is
modelled as a function from the linearized sequence of events it observes at
its suspension points (channel receives and context cancellation, merged in
the order the `select` statement commits to them) to the sequence of actions
it performs.  Durations are nanosecond counts (`Nat`), matching Go's
`time.Duration` representation.
-/

/-! ## Message model

`model.Message` is the external data contract consumed by exporters
(package `agent/api/v1/model`, outside this core).  Per the design document
a Message is an immutable value `{kind: Metric|Event, name, timestamp,
body}`; only `name` and the kind are inspected by anything verified here, so
the timestamp and the opaque body are omitted from the embedding. -/

/-- Message kind: `model.MessageType_event` / `model.MessageType_metric`. -/
inductive MessageType
  | event
  | metric
deriving DecidableEq, Repr

/-- The Message value record (external contract `model.Message`). -/
structure Message where
  name : String
  type : MessageType
deriving DecidableEq, Repr

/-- Well-known event name `model.AgentNodeUpName`. -/
def AgentNodeUpName : String := "agent.node.up"

/-- Well-known event name `model.AgentNodeRestartName`. -/
def AgentNodeRestartName : String := "agent.node.restart"

/-- Well-known event name `model.AgentNodeDownName`. -/
def AgentNodeDownName : String := "agent.node.down"

/-! ## Exporter registry (`internal/pkg/global/exporter_registry.go`) -/

/-- One nanosecond-resolution second, Go's `time.Second`. -/
def timeSecond : Nat := 1000000000

/-- `DefaultExporterTimeout = 5 * time.Second`: the registry's fixed
per-message delivery timeout. -/
def DefaultExporterTimeout : Nat := 5 * timeSecond

/-- A dynamic value carried by a subscription channel (`chan interface{}`).
`msgPtr` is a `*model.Message` (what `MessageListener` expects), `msgVal` is
a `model.Message` passed by value (the shape the watcher tests assert
subscribers receive), `other` is any other payload. -/
inductive Item
  | msgPtr (m : Message)
  | msgVal (m : Message)
  | other
deriving DecidableEq, Repr

/-- The Go type assertion `m.(*model.Message)` on a channel item: it
succeeds exactly when the dynamic type is the pointer type
`*model.Message`. -/
def assertMessagePtr : Item → Option Message
  | Item.msgPtr m => some m
  | Item.msgVal _ => none
  | Item.other => none

/-- One event observed by a delivery task at a suspension point of its
`select`: a value received on the subscription channel (together with
whether the subsequent `HandleMessage` call, if any, outlives the
5-second deadline of its child context), or the task's context being
cancelled. -/
inductive Ev
  | recv (i : Item) (deadlineElapsed : Bool)
  | cancel
deriving DecidableEq, Repr

/-- One action performed by a delivery task, in program order:
`warn` is the `zap` warning logged for a payload that fails the type
assertion; `ctxTimeout d` is `context.WithTimeout(ctx, d)` deriving a child
context from the task's own scope; `handleBegin`/`handleEnd` bracket the
synchronous `e.HandleMessage(ctx, message)` call (`handleEnd` records
whether the deadline elapsed before the call returned); `cancelChild` is
the `cancel()` releasing the child scope; `exitLog` is the
`zap` Info log `exiting listener` on the cancellation branch; `wgDone` is
the deferred `wg.Done()` that runs when the task returns. -/
inductive Act
  | warn (i : Item)
  | ctxTimeout (d : Nat)
  | handleBegin (m : Message)
  | handleEnd (m : Message) (deadlineElapsed : Bool)
  | cancelChild
  | exitLog
  | wgDone
deriving DecidableEq, Repr

/-- `MessageListener(ctx, wg, ch, e)`: loops over a `select` between a
channel receive and `ctx.Done()`.  A received item failing the
`*model.Message` type assertion is logged and skipped (`continue`); a
well-formed message is delivered through `HandleMessage` under a child
context with timeout `DefaultExporterTimeout`, whose `cancel` runs right
after the call returns; cancellation logs and returns, firing the deferred
`wg.Done()`.  An exhausted event list means the task is still blocked in
`select`, having performed no further action. -/
def MessageListener : List Ev → List Act
  | [] => []
  | Ev.cancel :: _ => [Act.exitLog, Act.wgDone]
  | Ev.recv i b :: rest =>
    match assertMessagePtr i with
    | some m =>
      Act.ctxTimeout DefaultExporterTimeout :: Act.handleBegin m ::
        Act.handleEnd m b :: Act.cancelChild :: MessageListener rest
    | none => Act.warn i :: MessageListener rest

/-- The well-formed messages received on the channel before the task
observes cancellation, in arrival order. -/
def receivedWellFormed : List Ev → List Message
  | [] => []
  | Ev.cancel :: _ => []
  | Ev.recv i _ :: rest =>
    match assertMessagePtr i with
    | some m => m :: receivedWellFormed rest
    | none => receivedWellFormed rest

/-- The messages a delivery task actually hands to `HandleMessage`, in
invocation order. -/
def deliveredMsgs : List Act → List Message
  | [] => []
  | Act.handleBegin m :: rest => m :: deliveredMsgs rest
  | _ :: rest => deliveredMsgs rest

/-- Number of type-assertion warnings in an action sequence. -/
def warnCount (l : List Act) : Nat :=
  l.countP fun a => match a with | Act.warn _ => true | _ => false

/-- Number of `wg.Done()` calls in an action sequence. -/
def wgDoneCount (l : List Act) : Nat :=
  l.countP fun a => match a with | Act.wgDone => true | _ => false

/-- Whether an observed event is the task's cancellation. -/
def isCancelEv : Ev → Bool
  | Ev.cancel => true
  | _ => false

/-- Positional bracketing invariant on an action sequence: every
`handleBegin` is immediately preceded by the creation of a child context
with the default timeout, immediately followed by the matching `handleEnd`,
and then by the `cancel()` releasing the child scope. -/
def Bracketed (l : List Act) : Prop :=
  ∀ n m, l[n]? = some (Act.handleBegin m) →
    1 ≤ n ∧ l[n-1]? = some (Act.ctxTimeout DefaultExporterTimeout) ∧
    ∃ b, l[n+1]? = some (Act.handleEnd m b) ∧ l[n+2]? = some Act.cancelChild

theorem bracketed_nil : Bracketed [] := by
  intro n m h
  simp at h

theorem bracketed_done : Bracketed [Act.exitLog, Act.wgDone] := by
  intro n m h
  rcases n with _ | _ | n <;> simp at h

theorem bracketed_warn (i : Item) (l : List Act) (hl : Bracketed l) :
    Bracketed (Act.warn i :: l) := by
  intro n m h
  rcases n with _ | n
  · simp at h
  · simp at h
    obtain ⟨h1, hctx, b, he, hc⟩ := hl n m h
    obtain ⟨k, rfl⟩ : ∃ k, n = k + 1 := ⟨n - 1, by omega⟩
    refine ⟨by omega, ?_, b, ?_, ?_⟩
    · simpa using hctx
    · simpa using he
    · simpa using hc

theorem bracketed_deliver (m0 : Message) (b0 : Bool) (l : List Act)
    (hl : Bracketed l) :
    Bracketed (Act.ctxTimeout DefaultExporterTimeout :: Act.handleBegin m0 ::
      Act.handleEnd m0 b0 :: Act.cancelChild :: l) := by
  intro n m h
  rcases n with _ | _ | _ | _ | n
  · simp at h
  · simp at h
    subst h
    exact ⟨by omega, by simp, b0, by simp, by simp⟩
  · simp at h
  · simp at h
  · simp at h
    obtain ⟨h1, hctx, b, he, hc⟩ := hl n m h
    obtain ⟨k, rfl⟩ : ∃ k, n = k + 1 := ⟨n - 1, by omega⟩
    refine ⟨by omega, ?_, b, ?_, ?_⟩
    · simpa using hctx
    · simpa using he
    · simpa using hc

theorem bracketed_listener (tr : List Ev) : Bracketed (MessageListener tr) := by
  induction tr with
  | nil => exact bracketed_nil
  | cons e rest ih =>
    cases e with
    | cancel => exact bracketed_done
    | recv i b =>
      cases i with
      | msgPtr m =>
        simp only [MessageListener, assertMessagePtr]
        exact bracketed_deliver m b _ ih
      | msgVal m =>
        simp only [MessageListener, assertMessagePtr]
        exact bracketed_warn _ _ ih
      | other =>
        simp only [MessageListener, assertMessagePtr]
        exact bracketed_warn _ _ ih

theorem deliveredMsgs_listener (tr : List Ev) :
    deliveredMsgs (MessageListener tr) = receivedWellFormed tr := by
  induction tr with
  | nil => rfl
  | cons e rest ih =>
    cases e with
    | cancel => rfl
    | recv i b =>
      cases i <;> simp [MessageListener, receivedWellFormed,
        assertMessagePtr, deliveredMsgs, ih]

theorem listener_stops_at_cancel (pre post : List Ev) :
    MessageListener (pre ++ Ev.cancel :: post) =
      MessageListener (pre ++ [Ev.cancel]) := by
  induction pre with
  | nil => rfl
  | cons e rest ih =>
    cases e with
    | cancel => rfl
    | recv i b =>
      cases i <;> simp [MessageListener, assertMessagePtr, ih]

theorem listener_returns (pre : List Ev) :
    ∃ l, MessageListener (pre ++ [Ev.cancel]) =
      l ++ [Act.exitLog, Act.wgDone] := by
  induction pre with
  | nil => exact ⟨[], rfl⟩
  | cons e rest ih =>
    obtain ⟨l, hl⟩ := ih
    cases e with
    | cancel => exact ⟨[], rfl⟩
    | recv i b =>
      cases i with
      | msgPtr m =>
        exact ⟨Act.ctxTimeout DefaultExporterTimeout :: Act.handleBegin m ::
          Act.handleEnd m b :: Act.cancelChild :: l,
          by simp [MessageListener, assertMessagePtr, hl]⟩
      | msgVal m =>
        exact ⟨Act.warn (Item.msgVal m) :: l,
          by simp [MessageListener, assertMessagePtr, hl]⟩
      | other =>
        exact ⟨Act.warn Item.other :: l,
          by simp [MessageListener, assertMessagePtr, hl]⟩

theorem wgDoneCount_cons (a : Act) (l : List Act) :
    wgDoneCount (a :: l) = wgDoneCount l + (if a = Act.wgDone then 1 else 0) := by
  cases a <;> simp [wgDoneCount, List.countP_cons]

theorem wgDoneCount_listener (tr : List Ev) :
    wgDoneCount (MessageListener tr) = if tr.any isCancelEv then 1 else 0 := by
  induction tr with
  | nil => rfl
  | cons e rest ih =>
    cases e with
    | cancel => rfl
    | recv i b =>
      cases i <;>
        simp [MessageListener, assertMessagePtr, wgDoneCount_cons,
          isCancelEv, ih]

/-! ## Registry registration and task spawning -/

/-- `ExporterHandler`: the registerer's subscription unit, an immutable
`{exporter, subscription channel}` pair.  The exporter and channel types are
abstract: the registry never inspects either, it only pairs them and spawns
a delivery task. -/
structure ExporterHandler (E C : Type) where
  exporter : E
  subscriptionCh : C
deriving DecidableEq, Repr

/-- `ExporterRegisterer`: the registry's only state, its handler list. -/
structure ExporterRegisterer (E C : Type) where
  handlers : List (ExporterHandler E C)
deriving DecidableEq, Repr

/-- `Register(exporter, subCh)`: appends the pair to the handler list and
returns `nil` (modelled functionally: the updated registry plus the returned
error value). -/
def Register {E C : Type} (e : ExporterRegisterer E C) (exporter : E)
    (subCh : C) : ExporterRegisterer E C × Option String :=
  (⟨e.handlers ++ [⟨exporter, subCh⟩]⟩, none)

/-- One action performed by `Start`, in program order: a `wg.Add(n)` on the
supplied wait group, or the `go func(e){ MessageListener(...) }(...)`
spawning the delivery task for one handler (the handler is passed by value
into the goroutine). -/
inductive StartAct (E C : Type)
  | wgAdd (n : Nat)
  | spawnListener (h : ExporterHandler E C)
deriving DecidableEq, Repr

/-- The loop body of `Start`: for each handler, `wg.Add(1)` followed by
spawning its delivery task. -/
def startActs {E C : Type} : List (ExporterHandler E C) → List (StartAct E C)
  | [] => []
  | h :: rest => StartAct.wgAdd 1 :: StartAct.spawnListener h :: startActs rest

/-- `Start(ctx, wg)`: iterates over the handler list present at the moment
of the call, producing the spawn actions, and returns `nil`. -/
def Start {E C : Type} (e : ExporterRegisterer E C) :
    List (StartAct E C) × Option String :=
  (startActs e.handlers, none)

/-- The handlers whose delivery tasks a `Start` action sequence spawns, in
spawn order. -/
def spawnedHandlers {E C : Type} :
    List (StartAct E C) → List (ExporterHandler E C)
  | [] => []
  | StartAct.spawnListener h :: rest => h :: spawnedHandlers rest
  | _ :: rest => spawnedHandlers rest

/-- Total amount added to the wait group by a `Start` action sequence. -/
def wgAddTotal {E C : Type} : List (StartAct E C) → Nat
  | [] => 0
  | StartAct.wgAdd n :: rest => n + wgAddTotal rest
  | _ :: rest => wgAddTotal rest

theorem spawnedHandlers_startActs {E C : Type}
    (hs : List (ExporterHandler E C)) :
    spawnedHandlers (startActs hs) = hs := by
  induction hs with
  | nil => rfl
  | cons h rest ih => simp [startActs, spawnedHandlers, ih]

theorem wgAddTotal_startActs {E C : Type} (hs : List (ExporterHandler E C)) :
    wgAddTotal (startActs hs) = hs.length := by
  induction hs with
  | nil => rfl
  | cons h rest ih =>
    simp [startActs, wgAddTotal, ih]
    omega

theorem startActs_getElem {E C : Type} (hs : List (ExporterHandler E C)) :
    ∀ k, (startActs hs)[2*k]? = (hs[k]?).map (fun _ => StartAct.wgAdd 1) ∧
      (startActs hs)[2*k+1]? = (hs[k]?).map StartAct.spawnListener := by
  induction hs with
  | nil => intro k; simp [startActs]
  | cons h rest ih =>
    intro k
    cases k with
    | zero => simp [startActs]
    | succ k =>
      have h2 : 2 * (k + 1) = 2 * k + 1 + 1 := by omega
      rw [h2]
      simpa [startActs] using ih k

/-! ## Container lifecycle watcher

The watcher implementation file is not part of the sources at hand; only
its unit tests (`pkg/watch/docker_container_test.go`) and the design
document describe it.  The state machine below is therefore modelled from
the specification, while the adapter doubles (`DockerMockAdapterHealthy`,
`DockerMockAdapterError`) and the test configuration are translated from
the test source. -/

/-- A resource record from the adapter (`types.Container`): only the names
are inspected by discovery. -/
structure Container where
  names : List String
deriving DecidableEq, Repr

/-- An adapter lifecycle event (`events.Message`): id, status, type and the
actor attributes relevant to translation. -/
structure DockerEvent where
  id : String
  status : String
  type : String
  attributes : List (String × String)
deriving DecidableEq, Repr

/-- Lookup of an actor attribute by key, first binding wins. -/
def lookupAttr : List (String × String) → String → Option String
  | [], _ => none
  | (k, v) :: rest, key => if k = key then some v else lookupAttr rest key

/-- Modelled from the spec: a configured pattern matches a resource when it
matches one of the resource's names (the concrete matcher, a regular
expression search, is part of the missing watcher/discovery sources; plain
substring containment suffices for the literal patterns used by the
tests). -/
def containerMatchesPattern (c : Container) (p : String) : Bool :=
  c.names.any fun n => decide (List.IsInfix p.toList n.toList)

/-- Modelled from the spec: `MatchContainer` — the first pattern (in given
order) that matches any currently known resource wins; no matching resource
is a discovery failure (`none`, standing for `ErrContainerNotFound`). -/
def MatchContainer (containers : List Container) :
    List String → Option Container
  | [] => none
  | p :: ps =>
    match containers.find? (fun c => containerMatchesPattern c p) with
    | some c => some c
    | none => MatchContainer containers ps

/-- The `agent.node.up` event Message. -/
def upMsg : Message := { name := AgentNodeUpName, type := MessageType.event }

/-- The `agent.node.restart` event Message. -/
def restartMsg : Message :=
  { name := AgentNodeRestartName, type := MessageType.event }

/-- The `agent.node.down` event Message. -/
def downMsg : Message := { name := AgentNodeDownName, type := MessageType.event }

/-- Modelled from the spec: translation of an adapter event's status into
the domain vocabulary.  `start` maps to up, `restart` to restart, `die`
with a non-zero exit attribute to down; a zero-exit `die` and any other
status produce no event. -/
def translateDockerEvent (ev : DockerEvent) : Option Message :=
  if ev.status = "start" then some upMsg
  else if ev.status = "restart" then some restartMsg
  else if ev.status = "die" then
    match lookupAttr ev.attributes "exitCode" with
    | some code => if code = "0" then none else some downMsg
    | none => none
  else none

/-- One event observed by the watcher task while Streaming, linearized in
the order its `select` commits to them: a value on the adapter's message
stream, a value on its error stream, or cancellation of the watcher's
scope. -/
inductive StreamEv
  | msg (e : DockerEvent)
  | err
  | cancel
deriving DecidableEq, Repr

/-- Modelled from the spec: the Streaming loop.  A stream message is
translated and the translation (if any) emitted; a value on the error
stream drives the Repairing transition — re-open the subscription, emit one
repair `agent.node.up`, continue streaming (the task does not exit);
cancellation ends the loop, emitting nothing further. -/
def streamLoop : List StreamEv → List Message
  | [] => []
  | StreamEv.cancel :: _ => []
  | StreamEv.err :: rest => upMsg :: streamLoop rest
  | StreamEv.msg e :: rest => (translateDockerEvent e).toList ++ streamLoop rest

/-- Modelled from the spec: a watcher run — discovery (list resources,
match patterns) emits one `agent.node.up` on success and enters Streaming;
a discovery failure never reaches Streaming. -/
def containerWatchRun (containers : List Container) (patterns : List String)
    (stream : List StreamEv) : List Message :=
  match MatchContainer containers patterns with
  | none => []
  | some _ => upMsg :: streamLoop stream

/-- Modelled from the spec: every emitted Message is duplicated to all
registered subscriber channels (multicast, not load-balancing); the result
is the linear sequence of (subscriber, message) sends. -/
def multicastRun (subs : List Nat) : List Message → List (Nat × Message)
  | [] => []
  | m :: rest => (subs.map fun s => (s, m)) ++ multicastRun subs rest

/-- The messages subscriber `s` receives from a send sequence, in send
order. -/
def observedBy (s : Nat) (sends : List (Nat × Message)) : List Message :=
  (sends.filter fun p => p.1 == s).map Prod.snd

theorem observedBy_append (s : Nat) (a b : List (Nat × Message)) :
    observedBy s (a ++ b) = observedBy s a ++ observedBy s b := by
  simp [observedBy, List.filter_append]

theorem observedBy_map_not_mem (s : Nat) (m : Message) (subs : List Nat)
    (h : s ∉ subs) :
    observedBy s (subs.map fun t => (t, m)) = [] := by
  induction subs with
  | nil => rfl
  | cons t rest ih =>
    simp only [List.mem_cons, not_or] at h
    have hts : (t == s) = false := by
      simp only [beq_eq_false_iff_ne]
      exact fun e => h.1 e.symm
    have ih2 := ih h.2
    simp only [observedBy, List.map_cons, List.filter_cons] at ih2 ⊢
    simpa [hts] using ih2

theorem observedBy_map_mem (s : Nat) (m : Message) (subs : List Nat)
    (hnd : subs.Nodup) (hs : s ∈ subs) :
    observedBy s (subs.map fun t => (t, m)) = [m] := by
  induction subs with
  | nil => cases hs
  | cons t rest ih =>
    obtain ⟨hnotmem, hnd2⟩ := List.nodup_cons.mp hnd
    rcases List.mem_cons.mp hs with rfl | hs2
    · have h0 := observedBy_map_not_mem s m rest hnotmem
      simp only [observedBy, List.map_cons, List.filter_cons] at h0 ⊢
      simpa using h0
    · have hts : (t == s) = false := by
        simp only [beq_eq_false_iff_ne]
        exact fun e => hnotmem (e ▸ hs2)
      have ih2 := ih hnd2 hs2
      simp only [observedBy, List.map_cons, List.filter_cons] at ih2 ⊢
      simpa [hts] using ih2

theorem observedBy_multicast (s : Nat) (subs : List Nat) (msgs : List Message)
    (hnd : subs.Nodup) (hs : s ∈ subs) :
    observedBy s (multicastRun subs msgs) = msgs := by
  induction msgs with
  | nil => rfl
  | cons m rest ih =>
    rw [multicastRun, observedBy_append, observedBy_map_mem s m subs hnd hs, ih]
    rfl

theorem listener_drops_msgVal (ms : List Message) (b : Bool) :
    MessageListener (ms.map fun m => Ev.recv (Item.msgVal m) b) =
      ms.map fun m => Act.warn (Item.msgVal m) := by
  induction ms with
  | nil => rfl
  | cons m rest ih => simp [MessageListener, assertMessagePtr, ih]

theorem streamLoop_append_no_cancel (pre post : List StreamEv)
    (h : StreamEv.cancel ∉ pre) :
    streamLoop (pre ++ post) = streamLoop pre ++ streamLoop post := by
  induction pre with
  | nil => rfl
  | cons e rest ih =>
    simp only [List.mem_cons, not_or] at h
    cases e with
    | cancel => exact absurd rfl h.1
    | err => simp [streamLoop, ih h.2]
    | msg ev => simp [streamLoop, ih h.2]

theorem streamLoop_repair (pre post : List StreamEv)
    (h : StreamEv.cancel ∉ pre) :
    streamLoop (pre ++ StreamEv.err :: post) =
      streamLoop pre ++ upMsg :: streamLoop post := by
  rw [streamLoop_append_no_cancel pre _ h]
  rfl

/-! ## Concrete data of the watcher tests -/

/-- The single running container both mock adapters report
(`GetRunningContainers` / `MatchContainer` of the test doubles). -/
def mockContainers : List Container :=
  [⟨["/dapper-private-network_consensus_3_1"]⟩]

/-- The pattern list both tests configure
(`ContainerWatchConf{Regex: ...}`). -/
def mockPatterns : List String := ["dapper-private-network_consensus_3_1"]

/-- First event buffered by `DockerMockAdapterHealthy.DockerEvents`. -/
def startEvent : DockerEvent := ⟨"100", "start", "container", []⟩

/-- Second event buffered by `DockerMockAdapterHealthy.DockerEvents` (also
the event the error mock delivers one second after its error). -/
def restartEvent : DockerEvent := ⟨"100", "restart", "container", []⟩

/-- Third event buffered by `DockerMockAdapterHealthy.DockerEvents`, with
exit attribute 1. -/
def dieEvent : DockerEvent := ⟨"100", "die", "container", [("exitCode", "1")]⟩

/-- The healthy mock adapter's stream: `start`, `restart`, `die(exit=1)`
on the message channel, nothing on the error channel. -/
def healthyStream : List StreamEv :=
  [StreamEv.msg startEvent, StreamEv.msg restartEvent, StreamEv.msg dieEvent]

/-- The error mock adapter's stream in temporal order: the buffered error
is available immediately, the `restart` message only one second later; the
`sync.Once` in the mock makes the repair re-subscription return the same
channels without a second error. -/
def errorStream : List StreamEv := [StreamEv.err, StreamEv.msg restartEvent]

theorem containerWatchRun_happy :
    containerWatchRun mockContainers mockPatterns healthyStream =
      [upMsg, upMsg, restartMsg, downMsg] := by decide

theorem containerWatchRun_error :
    containerWatchRun mockContainers mockPatterns errorStream =
      [upMsg, upMsg, restartMsg] := by decide

theorem containerWatchRun_discovered (stream : List StreamEv) :
    containerWatchRun mockContainers mockPatterns stream =
      upMsg :: streamLoop stream := by
  rw [containerWatchRun]
  have : MatchContainer mockContainers mockPatterns =
      some ⟨["/dapper-private-network_consensus_3_1"]⟩ := by decide
  rw [this]

/-! ## Claims -/

/-- C1: for every well-formed Message received on an exporter's
subscription channel, the delivery task derives a child context from its
own scope with the fixed default timeout of 5 seconds, invokes the
exporter's `HandleMessage` synchronously with that child context, and
releases (cancels) the child scope right after the call returns, whether
the call returned normally or its deadline elapsed. -/
theorem claim_C1_delivery_timeout_bracket (tr : List Ev) :
    DefaultExporterTimeout = 5 * timeSecond ∧
    deliveredMsgs (MessageListener tr) = receivedWellFormed tr ∧
    ∀ n m, (MessageListener tr)[n]? = some (Act.handleBegin m) →
      1 ≤ n ∧
      (MessageListener tr)[n-1]? =
        some (Act.ctxTimeout DefaultExporterTimeout) ∧
      ∃ b, (MessageListener tr)[n+1]? = some (Act.handleEnd m b) ∧
        (MessageListener tr)[n+2]? = some Act.cancelChild :=
  ⟨rfl, deliveredMsgs_listener tr, bracketed_listener tr⟩

/-- Witness for C1: a concrete one-message trace, bracketed as stated. -/
theorem claim_C1_witness :
    (MessageListener [Ev.recv (Item.msgPtr upMsg) true])[1]? =
      some (Act.handleBegin upMsg) ∧
    (1 ≤ 1 ∧
      (MessageListener [Ev.recv (Item.msgPtr upMsg) true])[1-1]? =
        some (Act.ctxTimeout DefaultExporterTimeout) ∧
      ∃ b, (MessageListener [Ev.recv (Item.msgPtr upMsg) true])[1+1]? =
        some (Act.handleEnd upMsg b) ∧
        (MessageListener [Ev.recv (Item.msgPtr upMsg) true])[1+2]? =
          some Act.cancelChild) :=
  ⟨by decide,
    (claim_C1_delivery_timeout_bracket
      [Ev.recv (Item.msgPtr upMsg) true]).2.2 1 upMsg (by decide)⟩

/-- C2: an item failing the Message type assertion is logged with a warning
and discarded without invoking `HandleMessage`, and the task continues its
loop rather than returning: a subsequent valid Message on the same channel
is still delivered. -/
theorem claim_C2_malformed_skipped (i : Item) (b b' : Bool) (m : Message)
    (rest : List Ev) (h : assertMessagePtr i = none) :
    MessageListener (Ev.recv i b :: rest) =
      Act.warn i :: MessageListener rest ∧
    deliveredMsgs (MessageListener (Ev.recv i b ::
        Ev.recv (Item.msgPtr m) b' :: rest)) =
      m :: receivedWellFormed rest := by
  constructor
  · simp [MessageListener, h]
  · rw [deliveredMsgs_listener]
    simp only [receivedWellFormed]
    rw [h]
    rfl

/-- Witness for C2: a non-Message payload followed by a valid Message. -/
theorem claim_C2_witness :
    assertMessagePtr Item.other = none ∧
    (MessageListener [Ev.recv Item.other true] =
      Act.warn Item.other :: MessageListener [] ∧
     deliveredMsgs (MessageListener [Ev.recv Item.other true,
        Ev.recv (Item.msgPtr restartMsg) false]) =
      restartMsg :: receivedWellFormed []) :=
  ⟨rfl, claim_C2_malformed_skipped Item.other true false restartMsg [] rfl⟩

/-- C3: once the delivery task observes cancellation of its scope it logs,
fires its deferred `wg.Done()` and returns; events after the cancellation
are never processed, so `HandleMessage` is never invoked again — an ordered
shutdown, with no error path involved. -/
theorem claim_C3_cancellation_shutdown (pre post : List Ev) :
    MessageListener (pre ++ Ev.cancel :: post) =
      MessageListener (pre ++ [Ev.cancel]) ∧
    (∃ l, MessageListener (pre ++ Ev.cancel :: post) =
      l ++ [Act.exitLog, Act.wgDone]) ∧
    deliveredMsgs (MessageListener (pre ++ Ev.cancel :: post)) =
      receivedWellFormed (pre ++ [Ev.cancel]) := by
  refine ⟨listener_stops_at_cancel pre post, ?_, ?_⟩
  · rw [listener_stops_at_cancel pre post]
    exact listener_returns pre
  · rw [listener_stops_at_cancel pre post, deliveredMsgs_listener]

/-- C4: delivery to one exporter is serialized by its single dedicated
task: every `HandleMessage` invocation has completed (its `handleEnd` is
the very next action in the task's sequential action list) before anything
further happens, so at most one invocation is ever in flight; and the
messages handed to the exporter are exactly the well-formed messages
enqueued on its channel, in enqueue order. -/
theorem claim_C4_serialized_in_order (tr : List Ev) :
    (∀ n m, (MessageListener tr)[n]? = some (Act.handleBegin m) →
      ∃ b, (MessageListener tr)[n+1]? = some (Act.handleEnd m b)) ∧
    deliveredMsgs (MessageListener tr) = receivedWellFormed tr := by
  refine ⟨fun n m h => ?_, deliveredMsgs_listener tr⟩
  obtain ⟨-, -, b, he, -⟩ := bracketed_listener tr n m h
  exact ⟨b, he⟩

/-- Witness for C4: in a concrete trace the invocation at position 1
completes at position 2. -/
theorem claim_C4_witness :
    (MessageListener [Ev.recv (Item.msgPtr downMsg) false])[1]? =
      some (Act.handleBegin downMsg) ∧
    (∃ b, (MessageListener [Ev.recv (Item.msgPtr downMsg) false])[1+1]? =
      some (Act.handleEnd downMsg b)) :=
  ⟨by decide,
    (claim_C4_serialized_in_order
      [Ev.recv (Item.msgPtr downMsg) false]).1 1 downMsg (by decide)⟩

/-- C5: one `Start` call performs, for each handler registered before the
call and in list order, one `wg.Add(1)` immediately followed by spawning
that handler's delivery task — exactly one task per pair, the increment
preceding the spawn — and returns `nil`; each spawned task fires its
deferred `wg.Done()` exactly once, precisely when it returns on
cancellation, so waiting on the group ends only after all tasks exited. -/
theorem claim_C5_start_spawns_once (E C : Type) (r : ExporterRegisterer E C) :
    (Start r).2 = none ∧
    spawnedHandlers (Start r).1 = r.handlers ∧
    wgAddTotal (Start r).1 = r.handlers.length ∧
    (∀ k, (Start r).1[2*k]? =
        (r.handlers[k]?).map (fun _ => StartAct.wgAdd 1) ∧
      (Start r).1[2*k+1]? = (r.handlers[k]?).map StartAct.spawnListener) ∧
    ∀ tr : List Ev, wgDoneCount (MessageListener tr) =
      if tr.any isCancelEv then 1 else 0 :=
  ⟨rfl, spawnedHandlers_startActs _, wgAddTotal_startActs _,
    startActs_getElem _, wgDoneCount_listener⟩

/-- C6: `Register` always returns `nil` and appends the pair to the handler
list with no de-duplication: registering the same pair twice yields two
independent handler entries. -/
theorem claim_C6_register_appends (E C : Type) (r : ExporterRegisterer E C)
    (x : E) (c : C) :
    (Register r x c).2 = none ∧
    (Register r x c).1.handlers = r.handlers ++ [⟨x, c⟩] ∧
    (Register (Register r x c).1 x c).1.handlers =
      r.handlers ++ [⟨x, c⟩, ⟨x, c⟩] := by
  refine ⟨rfl, rfl, ?_⟩
  simp [Register]

/-- C7 (watcher modelled from the spec): happy path — the configured
pattern matches exactly one resource and the adapter's stream yields
`start`, `restart`, `die` with exit attribute 1 in that order; every
subscriber registered before `Start` observes exactly `agent.node.up`
(discovery), `agent.node.up`, `agent.node.restart`, `agent.node.down`,
with the discovery up emitted first. -/
theorem claim_C7_happy_path (subs : List Nat) (s : Nat)
    (hnd : subs.Nodup) (hs : s ∈ subs) :
    observedBy s (multicastRun subs
        (containerWatchRun mockContainers mockPatterns healthyStream)) =
      [upMsg, upMsg, restartMsg, downMsg] ∧
    (containerWatchRun mockContainers mockPatterns healthyStream)[0]? =
      some upMsg := by
  rw [containerWatchRun_happy, observedBy_multicast s subs _ hnd hs]
  exact ⟨rfl, rfl⟩

/-- Witness for C7: the single subscriber of the test observes the full
sequence. -/
theorem claim_C7_witness :
    ([0] : List Nat).Nodup ∧ 0 ∈ ([0] : List Nat) ∧
    (observedBy 0 (multicastRun [0]
        (containerWatchRun mockContainers mockPatterns healthyStream)) =
      [upMsg, upMsg, restartMsg, downMsg] ∧
     (containerWatchRun mockContainers mockPatterns healthyStream)[0]? =
      some upMsg) :=
  ⟨by decide, by decide, claim_C7_happy_path [0] 0 (by decide) (by decide)⟩

/-- C8 (watcher modelled from the spec): repair path — a value on the
adapter's error stream while Streaming leads to re-subscription and
exactly one repair `agent.node.up` after which streaming continues from
the fresh streams (the task does not terminate); the discovery up is
emitted exactly once at the head of any run, so it is not repeated; on the
error-mock scenario (error at first subscription open, `restart` one
second later) the observed sequence is up (discovery), up (repair),
restart. -/
theorem claim_C8_repair_path (pre post : List StreamEv)
    (h : StreamEv.cancel ∉ pre) :
    streamLoop (pre ++ StreamEv.err :: post) =
      streamLoop pre ++ upMsg :: streamLoop post ∧
    (∀ stream, containerWatchRun mockContainers mockPatterns stream =
      upMsg :: streamLoop stream) ∧
    containerWatchRun mockContainers mockPatterns errorStream =
      [upMsg, upMsg, restartMsg] :=
  ⟨streamLoop_repair pre post h, containerWatchRun_discovered,
    containerWatchRun_error⟩

/-- Witness for C8: an error at the first subscription open followed by the
delayed restart. -/
theorem claim_C8_witness :
    StreamEv.cancel ∉ ([] : List StreamEv) ∧
    (streamLoop ([] ++ StreamEv.err :: [StreamEv.msg restartEvent]) =
      streamLoop [] ++ upMsg :: streamLoop [StreamEv.msg restartEvent] ∧
     (∀ stream, containerWatchRun mockContainers mockPatterns stream =
       upMsg :: streamLoop stream) ∧
     containerWatchRun mockContainers mockPatterns errorStream =
       [upMsg, upMsg, restartMsg]) :=
  ⟨by simp,
    claim_C8_repair_path [] [StreamEv.msg restartEvent] (by simp)⟩

/-- C9 (implicit): the listener's well-formedness check is the Go type
assertion to the pointer type `*model.Message`; a `model.Message` passed by
value — the shape the watcher tests assert subscribers receive — fails the
assertion, so a channel fed Message values has every item warned about and
dropped and `HandleMessage` is never invoked for any of them. -/
theorem claim_C9_value_messages_dropped (ms : List Message) (b : Bool) :
    (∀ m, assertMessagePtr (Item.msgPtr m) = some m) ∧
    (∀ m, assertMessagePtr (Item.msgVal m) = none) ∧
    deliveredMsgs (MessageListener
      (ms.map fun m => Ev.recv (Item.msgVal m) b)) = [] ∧
    warnCount (MessageListener
      (ms.map fun m => Ev.recv (Item.msgVal m) b)) = ms.length := by
  refine ⟨fun m => rfl, fun m => rfl, ?_, ?_⟩
  · rw [listener_drops_msgVal]
    induction ms with
    | nil => rfl
    | cons m rest ih => simpa [deliveredMsgs] using ih
  · rw [listener_drops_msgVal]
    induction ms with
    | nil => rfl
    | cons m rest ih =>
      simp only [List.map_cons, warnCount, List.countP_cons] at ih ⊢
      simp [ih]

/-- C10 (implicit): `Start` spawns tasks only for the handlers present at
the moment of the call — a pair appended by a later `Register` has as many
delivery tasks as it had entries before that `Register`, so its channel is
never serviced unless `Start` runs again — and a second `Start` call spawns
fresh tasks for all earlier handlers too, doubling their task count. -/
theorem claim_C10_late_register_unserviced (E C : Type) [DecidableEq E]
    [DecidableEq C] (r : ExporterRegisterer E C) (x : E) (c : C) :
    spawnedHandlers (Start r).1 = r.handlers ∧
    (spawnedHandlers (Start r).1).count (⟨x, c⟩ : ExporterHandler E C) =
      r.handlers.count ⟨x, c⟩ ∧
    spawnedHandlers (Start (Register r x c).1).1 = r.handlers ++ [⟨x, c⟩] ∧
    ∀ h : ExporterHandler E C,
      (spawnedHandlers (Start r).1 ++
        spawnedHandlers (Start (Register r x c).1).1).count h =
      2 * r.handlers.count h + ([⟨x, c⟩] : List (ExporterHandler E C)).count h := by
  have hA : spawnedHandlers (Start r).1 = r.handlers :=
    spawnedHandlers_startActs r.handlers
  have hB : spawnedHandlers (Start (Register r x c).1).1 =
      r.handlers ++ [⟨x, c⟩] :=
    spawnedHandlers_startActs _
  refine ⟨hA, ?_, hB, ?_⟩
  · rw [hA]
  · intro h
    rw [hA, hB, List.count_append, List.count_append]
    omega
